import Mathlib

/-!
Verification development for the `hindmarsh-rose-v2-rust` plugin
(`src/src/lib.rs`).  The numeric state of the plugin is embedded over `ℚ`
(each `f64` literal of the source is read as the exact decimal it denotes);
the `f64 -> usize` saturating casts of the source are modelled explicitly.
The definitions follow the source functions `HindmarshRosev2Rust::new`,
`update_burst_settings`, `set_config`, `process`, `set_pts_burst` and
`select_dt_neuron_model`.
-/

set_option maxRecDepth 8000

/-- `usize::MAX` on the 64-bit target: `f64 as usize` casts saturate here. -/
def usizeMax : ℕ := 18446744073709551615

/-- Rust `f64::round`: round half away from zero. -/
def rustRound (q : ℚ) : ℤ := if 0 ≤ q then ⌊q + 1/2⌋ else -⌊-q + 1/2⌋

/-- Rust `f64::trunc`: round toward zero (as a rational). -/
def qtrunc (q : ℚ) : ℚ := if 0 ≤ q then (⌊q⌋ : ℚ) else (⌈q⌉ : ℚ)

/-- Rust `f64::fract`: `self - self.trunc()`. -/
def qfract (q : ℚ) : ℚ := q - qtrunc q

/-- Round-to-nearest binary64 value of a nonzero rational in the normal
range (ties resolved upward; no tie occurs at the inputs this development
evaluates it on).  `fp64 q` is the double nearest `q`, as a rational. -/
def fp64 (q : ℚ) : ℚ :=
  if q = 0 then 0
  else if 0 < q then
    (rustRound (q * 2 ^ (52 - Int.log 2 q)) : ℚ) * (2 : ℚ) ^ (Int.log 2 q - 52)
  else
    -((rustRound (-q * 2 ^ (52 - Int.log 2 (-q))) : ℚ) * (2 : ℚ) ^ (Int.log 2 (-q) - 52))

/-- The mutable instance state of `struct HindmarshRosev2Rust`. -/
@[ext]
structure HR where
  x : ℚ
  y : ℚ
  z : ℚ
  input_syn : ℚ
  e : ℚ
  mu : ℚ
  s : ℚ
  vh : ℚ
  dt : ℚ
  burst_duration : ℚ
  s_points : ℕ
  period_seconds : ℚ
  cfg_x : ℚ
  cfg_y : ℚ
  cfg_z : ℚ
deriving DecidableEq, Repr

/-- `HindmarshRosev2Rust::new()`. -/
def HR.new : HR :=
  { x := -0.9013747551021072
    y := -3.15948829665501
    z := 3.247826955037619
    input_syn := 0
    e := 3.25
    mu := 0.006
    s := 4.0
    vh := 1.0
    dt := 0.0015
    burst_duration := 1.0
    s_points := 1
    period_seconds := 0.001
    cfg_x := -0.9013747551021072
    cfg_y := -3.15948829665501
    cfg_z := 3.247826955037619 }

/-- A configuration document restricted to the keys `set_config` recognises.
`none` models a key that is absent (or whose JSON value is not a number);
`some v` models a numeric value `v`. -/
structure HRConfig where
  x : Option ℚ := none
  y : Option ℚ := none
  z : Option ℚ := none
  e : Option ℚ := none
  mu : Option ℚ := none
  s : Option ℚ := none
  vh : Option ℚ := none
  time_increment : Option ℚ := none
  burst_duration : Option ℚ := none
  period_seconds : Option ℚ := none
deriving DecidableEq, Repr

/-- The `dts` table of `set_pts_burst` (step sizes, ascending). -/
def hrDts : List ℚ := [
  0.000500, 0.000600, 0.000700, 0.000800, 0.000900, 0.001000,
  0.001100, 0.001200, 0.001300, 0.001400, 0.001500, 0.001600,
  0.001800, 0.002000, 0.002200, 0.002500, 0.002800, 0.002900,
  0.003000, 0.003100, 0.003200, 0.003300, 0.003400, 0.003500,
  0.003600, 0.003700, 0.003800, 0.003900, 0.004000, 0.004100,
  0.004200, 0.004300, 0.004400, 0.004500, 0.004600, 0.004700,
  0.004800, 0.004900, 0.005000, 0.005100, 0.005200, 0.005400,
  0.005600, 0.005800, 0.006000, 0.006200, 0.006400, 0.006600,
  0.006800, 0.007000, 0.007200, 0.007400, 0.007700, 0.008000,
  0.008300, 0.008600, 0.008900, 0.009200, 0.009600, 0.010000,
  0.010400, 0.010900, 0.011400, 0.011900, 0.012500, 0.013100,
  0.013800, 0.014600, 0.015400, 0.016300, 0.017300, 0.018500,
  0.019900, 0.021500, 0.023300, 0.025500, 0.028100, 0.028400,
  0.028700, 0.029000, 0.029400, 0.029800, 0.030200, 0.030600,
  0.031000, 0.031400, 0.031800, 0.032200, 0.032600, 0.033000,
  0.033400, 0.033900, 0.034400, 0.034900, 0.035400, 0.035900,
  0.036400, 0.036900, 0.037400, 0.038000, 0.038600, 0.039200,
  0.039800, 0.040400, 0.041000, 0.041700, 0.042400, 0.043100,
  0.043800, 0.044500, 0.045300, 0.046100, 0.046900, 0.047700,
  0.048600, 0.049500, 0.050400, 0.051400, 0.052400, 0.053400,
  0.054500, 0.055600, 0.056800, 0.058000, 0.059300, 0.060600,
  0.062000, 0.063400, 0.064900, 0.066500, 0.068200, 0.069900,
  0.071700, 0.073600, 0.075600, 0.077700, 0.079900, 0.082300,
  0.084800, 0.087500, 0.090300, 0.093300, 0.096500, 0.100000]

/-- The `pts` table of `set_pts_burst` (achievable points, descending). -/
def hrPts : List ℚ := [
  577638.000000, 481366.000000, 412599.000000, 357615.500000, 317880.000000, 286092.500000,
  259143.333333, 237548.000000, 218869.500000, 203236.000000, 189687.000000, 177634.000000,
  157897.000000, 142001.833333, 129024.142857, 113496.125000, 101304.555556, 97811.222222,
  94527.400000, 91478.200000, 88619.400000, 85916.636364, 83389.636364, 81007.090909,
  78743.583333, 76615.416667, 74599.250000, 72676.000000, 70859.076923, 69130.846154,
  67476.642857, 65907.357143, 64402.666667, 62971.466667, 61602.533333, 60286.187500,
  59030.250000, 57825.562500, 56664.411765, 55553.294118, 54485.000000, 52463.222222,
  50586.263158, 48841.842105, 47211.050000, 45685.666667, 44255.818182, 42914.772727,
  41650.739130, 40459.083333, 39335.208333, 38270.680000, 36778.346154, 35398.000000,
  34117.571429, 32926.517241, 31815.833333, 30777.612903, 29493.939394, 28313.588235,
  27223.638889, 25974.405405, 24834.410256, 23790.268293, 22647.767442, 21609.977778,
  20513.166667, 19388.627451, 18381.132075, 17365.719298, 16361.600000, 15299.937500,
  14223.202899, 13164.400000, 12147.123457, 11098.876404, 10071.693878, 9965.282828,
  9861.100000, 9759.059406, 9626.242718, 9497.009615, 9371.179245, 9248.672897,
  9129.293578, 9012.981818, 8899.594595, 8789.000000, 8681.149123, 8575.896552,
  8473.170940, 8348.176471, 8226.809917, 8108.934426, 7994.379032, 7883.015873,
  7774.710938, 7669.348837, 7566.801527, 7447.308271, 7331.525926, 7219.291971,
  7110.435714, 7004.816901, 6902.298611, 6786.417808, 6674.355705, 6565.940397,
  6460.987013, 6359.339744, 6247.012579, 6138.592593, 6033.866667, 5932.660714,
  5822.777778, 5716.896552, 5614.796610, 5505.541436, 5400.467391, 5299.324468,
  5192.348958, 5089.615385, 4982.075000, 4878.985294, 4772.014354, 4669.633803,
  4564.178899, 4463.381166, 4360.214912, 4255.294872, 4149.216667, 4048.296748,
  3946.654762, 3844.764479, 3743.041353, 3641.872263, 3541.583630, 3438.300000,
  3336.926421, 3233.951299, 3133.666667, 3032.899696, 2932.320588, 2829.684659]

/-- One backward scan of the table (`for i in (0..pts.len()).rev()`); returns
the first pair, taken from the largest step size downward, whose
achievable-points entry strictly exceeds `aux`. -/
def searchScan (dts pts : List ℚ) (aux : ℚ) : Option (ℚ × ℚ) :=
  ((dts.zip pts).reverse).find? (fun dp => decide (aux < dp.2))

/-- The `while aux < pts[0]` loop of `select_dt_neuron_model`, with an
explicit fuel argument; `none` models non-termination of the source loop.
The result is the loop-exit state `(aux, selected_dt, pts_burst, flag)`. -/
def goLoop (dts pts : List ℚ) (pts_live : ℚ) :
    ℕ → ℚ → ℚ → ℚ → ℚ → Option (ℚ × ℚ × ℚ × Bool)
  | 0, _, _, _, _ => none
  | fuel + 1, aux, factor, sdt, pb =>
    if aux < pts.headD 0 then
      let aux' := pts_live * factor
      match searchScan dts pts aux' with
      | some (d, p) =>
        if qfract (p / pts_live) ≤ (1/10) * qtrunc (p / pts_live) then
          some (aux', d, p, true)
        else
          goLoop dts pts pts_live fuel aux' (factor + 1) d p
      | none => goLoop dts pts pts_live fuel aux' (factor + 1) sdt pb
    else
      some (aux, sdt, pb, false)

/-- Fuel that suffices for the loop whenever `0 < pts_live`
(see `goLoop_isSome`). -/
def fuelFor (pts : List ℚ) (pts_live : ℚ) : ℕ :=
  if 0 < pts_live then (⌈pts.headD 0 / pts_live⌉).toNat + 2 else 0

/-- Loop-exit state of the search (the `while` loop of
`select_dt_neuron_model` run to completion). -/
def searchExit (dts pts : List ℚ) (pts_live : ℚ) : Option (ℚ × ℚ × ℚ × Bool) :=
  goLoop dts pts pts_live (fuelFor pts pts_live) pts_live 1 (-1) (-1)

/-- `(selected_dt, pts_burst)` after the loop and the `if !flag` fallback
scan of `select_dt_neuron_model`. -/
def searchFinal (dts pts : List ℚ) (pts_live : ℚ) : Option (ℚ × ℚ) :=
  (searchExit dts pts pts_live).map (fun r =>
    if r.2.2.2 then (r.2.1, r.2.2.1)
    else
      match searchScan dts pts r.1 with
      | some (d, p) => (d, p)
      | none => (r.2.1, r.2.2.1))

/-- `select_dt_neuron_model`: returns the updated `dt` (changed only when
`selected_dt > 0`) together with the returned `pts_burst`. -/
def select_dt_neuron_model (dts pts : List ℚ) (pts_live dtIn : ℚ) : Option (ℚ × ℚ) :=
  (searchFinal dts pts pts_live).map (fun r => (if 0 < r.1 then r.1 else dtIn, r.2))

/-- `set_pts_burst`: the search instantiated at the fixed 144-entry table. -/
def set_pts_burst (burst_duration freq dtIn : ℚ) : Option (ℚ × ℚ) :=
  select_dt_neuron_model hrDts hrPts (burst_duration * freq) dtIn

/-- The `.max(1)` clamp applied when a `f64 -> usize` rounding produced `0`,
and the saturation of the cast itself. -/
def satCast (i : ℤ) : ℕ := min i.toNat usizeMax

/-- `else` branch of `update_burst_settings` (`burst_duration <= 0`):
`((period_seconds / dt).round() as usize).max(1)`.  `dt = 0` makes the
division produce `+inf`, which the saturating cast sends to `usize::MAX`. -/
def bdLeSteps (p dtv : ℚ) : ℕ :=
  max (if dtv = 0 then (if 0 < p then usizeMax else 0) else satCast (rustRound (p / dtv))) 1

/-- The `(dt, s_points)` pair produced by one run of `update_burst_settings`
on a state whose fields are `p` (`period_seconds`), `bd` (`burst_duration`),
`dtv` (`dt`) and `sp` (`s_points`).  The `none` arm of the match models the
divergent case `pts_live ≤ 0`, which is unreachable because the branch is
guarded by `p > 0` and `bd > 0` (see `searchFinal_isSome`). -/
def negCore (p bd dtv : ℚ) (sp : ℕ) : ℚ × ℕ :=
  if p ≤ 0 then (dtv, 1)
  else if 0 < bd then
    match set_pts_burst bd (1 / p) dtv with
    | some r =>
      let sp0 := satCast (rustRound (r.2 / (bd * (1 / p))))
      (r.1, if sp0 = 0 then 1 else sp0)
    | none => (dtv, sp)
  else (dtv, bdLeSteps p dtv)

/-- `HindmarshRosev2Rust::update_burst_settings`. -/
def update_burst_settings (st : HR) : HR :=
  let r := negCore st.period_seconds st.burst_duration st.dt st.s_points
  { st with dt := r.1, s_points := if r.2 = 0 then 1 else r.2 }

/-- The assignments of `set_config` before the final
`update_burst_settings` call. -/
def applyConfig (c : HRConfig) (st : HR) : HR :=
  let x := (c.x).getD st.x
  let y := (c.y).getD st.y
  let z := (c.z).getD st.z
  let st1 :=
    if (x, y, z) ≠ (st.cfg_x, st.cfg_y, st.cfg_z) then
      { st with cfg_x := x, cfg_y := y, cfg_z := z, x := x, y := y, z := z }
    else st
  { st1 with
      e := (c.e).getD st1.e
      mu := (c.mu).getD st1.mu
      s := (c.s).getD st1.s
      vh := (c.vh).getD st1.vh
      dt := max ((c.time_increment).getD st1.dt) 0
      burst_duration := (c.burst_duration).getD st1.burst_duration
      period_seconds := (c.period_seconds).getD st1.period_seconds }

/-- `HindmarshRosev2Rust::set_config`. -/
def set_config (c : HRConfig) (st : HR) : HR :=
  update_burst_settings (applyConfig c st)

/-- The closure `f` of `HindmarshRosev2Rust::process`: the vector field of
the three-variable model.  It reads only the parameter fields
(`vh`, `e`, `input_syn`, `mu`, `s`) of the instance. -/
def fHR (st : HR) (vars : Fin 3 → ℚ) : Fin 3 → ℚ :=
  let x := vars 0
  let y := vars 1
  let z := vars 2
  ![y + 3 * (x * x) - (x * x * x) - st.vh * z + st.e - st.input_syn,
    1 - 5 * (x * x) - y,
    st.mu * (-st.vh * z + st.s * (x + 1.6))]

/-- The six combination weights of the final stage of the integrator,
exactly as the source writes them. -/
def rkW1 : ℚ := 0.098765432098765

def rkW3 : ℚ := 0.396825396825396

def rkW4 : ℚ := 0.231481481481481

def rkW5 : ℚ := 0.308641975308641

def rkW6 : ℚ := 0.035714285714285

/-- One iteration of the integration loop of `process`: the six-stage
scheme written exactly as the source computes it (sequential `k[i][j]` and
`aux[j]` assignments, coefficients multiplied on the right). -/
def rkStep (f : (Fin 3 → ℚ) → (Fin 3 → ℚ)) (dt : ℚ) (vars : Fin 3 → ℚ) : Fin 3 → ℚ :=
  let r0 := f vars
  let k0 := fun j => dt * r0 j
  let aux0 := fun j => vars j + k0 j * 0.2
  let r1 := f aux0
  let k1 := fun j => dt * r1 j
  let aux1 := fun j => vars j + k0 j * 0.075 + k1 j * 0.225
  let r2 := f aux1
  let k2 := fun j => dt * r2 j
  let aux2 := fun j => vars j + k0 j * 0.3 - k1 j * 0.9 + k2 j * 1.2
  let r3 := f aux2
  let k3 := fun j => dt * r3 j
  let aux3 := fun j => vars j + k0 j * 0.075 + k1 j * 0.675 - k2 j * 0.6 + k3 j * 0.75
  let r4 := f aux3
  let k4 := fun j => dt * r4 j
  let aux4 := fun j => vars j + k0 j * 0.660493827160493 + k1 j * 2.5
    - k2 j * 5.185185185185185 + k3 j * 3.888888888888889 - k4 j * 0.864197530864197
  let r5 := f aux4
  let k5 := fun j => dt * r5 j
  fun j => vars j + k0 j * rkW1 + k2 j * rkW3 + k3 j * rkW4 + k4 j * rkW5 - k5 j * rkW6

/-- Stage values `k1 .. k6` of the scheme as section 4.2 of the
specification presents them (`k_i = h * f(v0 + sum of a_ij * k_j)`). -/
def specK1 (f : (Fin 3 → ℚ) → (Fin 3 → ℚ)) (h : ℚ) (v : Fin 3 → ℚ) : Fin 3 → ℚ :=
  fun j => h * f v j

def specK2 (f : (Fin 3 → ℚ) → (Fin 3 → ℚ)) (h : ℚ) (v : Fin 3 → ℚ) : Fin 3 → ℚ :=
  fun j => h * f (fun i => v i + 0.2 * specK1 f h v i) j

def specK3 (f : (Fin 3 → ℚ) → (Fin 3 → ℚ)) (h : ℚ) (v : Fin 3 → ℚ) : Fin 3 → ℚ :=
  fun j => h * f (fun i => v i + 0.075 * specK1 f h v i + 0.225 * specK2 f h v i) j

def specK4 (f : (Fin 3 → ℚ) → (Fin 3 → ℚ)) (h : ℚ) (v : Fin 3 → ℚ) : Fin 3 → ℚ :=
  fun j => h * f (fun i =>
    v i + 0.3 * specK1 f h v i - 0.9 * specK2 f h v i + 1.2 * specK3 f h v i) j

def specK5 (f : (Fin 3 → ℚ) → (Fin 3 → ℚ)) (h : ℚ) (v : Fin 3 → ℚ) : Fin 3 → ℚ :=
  fun j => h * f (fun i =>
    v i + 0.075 * specK1 f h v i + 0.675 * specK2 f h v i - 0.6 * specK3 f h v i
      + 0.75 * specK4 f h v i) j

def specK6 (f : (Fin 3 → ℚ) → (Fin 3 → ℚ)) (h : ℚ) (v : Fin 3 → ℚ) : Fin 3 → ℚ :=
  fun j => h * f (fun i =>
    v i + 0.660493827160493 * specK1 f h v i + 2.5 * specK2 f h v i
      - 5.185185185185185 * specK3 f h v i + 3.888888888888889 * specK4 f h v i
      - 0.864197530864197 * specK5 f h v i) j

/-- The spec-style final combination
`v1 = v0 + c1*k1 + c3*k3 + c4*k4 + c5*k5 - c6*k6` over the stages above. -/
def specCombine (f : (Fin 3 → ℚ) → (Fin 3 → ℚ)) (h : ℚ) (v : Fin 3 → ℚ) : Fin 3 → ℚ :=
  fun j => v j + rkW1 * specK1 f h v j + rkW3 * specK3 f h v j + rkW4 * specK4 f h v j
    + rkW5 * specK5 f h v j - rkW6 * specK6 f h v j

/-- The `let steps = self.s_points.min(10_000).max(1)` clamp of `process`:
the effective number of integrator applications in one tick. -/
def effSteps (st : HR) : ℕ := max (min st.s_points 10000) 1

/-- `HindmarshRosev2Rust::process`: `effSteps` applications of the
integrator with frozen `dt`, parameters and input. -/
def process (st : HR) : HR :=
  let w := (fun v => rkStep (fHR st) st.dt v)^[effSteps st] ![st.x, st.y, st.z]
  { st with x := w 0, y := w 1, z := w 2 }

/-- The least element of a list of rationals (the "smallest
achievable-points entry" of claim C2). -/
def listMinQ (l : List ℚ) : ℚ := l.foldr min (l.headD 0)

/-- The table-search loop as the specification words it, parameterized by
the loop bound `bound`: while `aux < bound`, set `aux := pts_live * factor`,
increment `factor`, scan for a candidate (kept as an `Option`), and accept
it immediately when the near-integer test passes.  Fuelled like `goLoop`;
the exit state is `(aux, candidate, accepted)`. -/
def specGo (dts pts : List ℚ) (bound pts_live : ℚ) :
    ℕ → ℚ → ℚ → Option (ℚ × ℚ) → Option (ℚ × Option (ℚ × ℚ) × Bool)
  | 0, _, _, _ => none
  | fuel + 1, aux, factor, cand =>
    if aux < bound then
      let aux' := pts_live * factor
      match searchScan dts pts aux' with
      | some (d, p) =>
        if qfract (p / pts_live) ≤ (1/10) * qtrunc (p / pts_live) then
          some (aux', some (d, p), true)
        else
          specGo dts pts bound pts_live fuel aux' (factor + 1) (some (d, p))
      | none => specGo dts pts bound pts_live fuel aux' (factor + 1) cand
    else
      some (aux, cand, false)

/-- The whole search as the specification words it (steps 1-4 of §4.3):
run the loop, fall back to one more scan at the final `aux` when no
multiple was accepted, then update `dt` to the candidate's step size when
a candidate exists, else keep `dt` and report the `-1` sentinel. -/
def specSelect (dts pts : List ℚ) (bound : ℚ) (fuel : ℕ) (pts_live dtIn : ℚ) :
    Option (ℚ × ℚ) :=
  (specGo dts pts bound pts_live fuel pts_live 1 none).map (fun r =>
    let cand :=
      if r.2.2 then r.2.1
      else
        match searchScan dts pts r.1 with
        | some dp => some dp
        | none => r.2.1
    match cand with
    | some (d, p) => (d, p)
    | none => (dtIn, -1))

/-- Claim C2's reading of the search: the loop runs while `aux` is below
the table's SMALLEST achievable-points entry. -/
def claimSelect (pts_live dtIn : ℚ) : Option (ℚ × ℚ) :=
  specSelect hrDts hrPts (listMinQ hrPts)
    (if 0 < pts_live then (⌈listMinQ hrPts / pts_live⌉).toNat + 2 else 0) pts_live dtIn

/-- The amended reading: the loop runs while `aux` is below the table's
FIRST achievable-points entry `pts[0]` (the largest, since the table is
descending), exactly as the source's `while aux < pts[0]`. -/
def amendedSelect (dts pts : List ℚ) (pts_live dtIn : ℚ) : Option (ℚ × ℚ) :=
  specSelect dts pts (pts.headD 0) (fuelFor pts pts_live) pts_live dtIn

/-- Correspondence between the sentinel pair `(selected_dt, pts_burst)`
of the source and the `Option` candidate of the spec-style search. -/
def CandRel (dts pts : List ℚ) (cand : Option (ℚ × ℚ)) (sdt pb : ℚ) : Prop :=
  (cand = none ∧ sdt = -1 ∧ pb = -1) ∨
    (∃ d p, cand = some (d, p) ∧ sdt = d ∧ pb = p ∧ (d, p) ∈ dts.zip pts)

/-- The intermediate stage points of the integrator exactly as `process`
computes them (`aux[j] = vars[j] + k[0][j]*c + ...`). -/
def codeAux1 (f : (Fin 3 → ℚ) → Fin 3 → ℚ) (dt : ℚ) (v : Fin 3 → ℚ) : Fin 3 → ℚ :=
  fun j => v j + dt * f v j * 0.2

def codeAux2 (f : (Fin 3 → ℚ) → Fin 3 → ℚ) (dt : ℚ) (v : Fin 3 → ℚ) : Fin 3 → ℚ :=
  fun j => v j + dt * f v j * 0.075 + dt * f (codeAux1 f dt v) j * 0.225

def codeAux3 (f : (Fin 3 → ℚ) → Fin 3 → ℚ) (dt : ℚ) (v : Fin 3 → ℚ) : Fin 3 → ℚ :=
  fun j => v j + dt * f v j * 0.3 - dt * f (codeAux1 f dt v) j * 0.9
    + dt * f (codeAux2 f dt v) j * 1.2

def codeAux4 (f : (Fin 3 → ℚ) → Fin 3 → ℚ) (dt : ℚ) (v : Fin 3 → ℚ) : Fin 3 → ℚ :=
  fun j => v j + dt * f v j * 0.075 + dt * f (codeAux1 f dt v) j * 0.675
    - dt * f (codeAux2 f dt v) j * 0.6 + dt * f (codeAux3 f dt v) j * 0.75

def codeAux5 (f : (Fin 3 → ℚ) → Fin 3 → ℚ) (dt : ℚ) (v : Fin 3 → ℚ) : Fin 3 → ℚ :=
  fun j => v j + dt * f v j * 0.660493827160493 + dt * f (codeAux1 f dt v) j * 2.5
    - dt * f (codeAux2 f dt v) j * 5.185185185185185
    + dt * f (codeAux3 f dt v) j * 3.888888888888889
    - dt * f (codeAux4 f dt v) j * 0.864197530864197

/-- Concrete test states used by witnesses and counterexamples. -/
def stNoBurst : HR := { HR.new with burst_duration := 0, period_seconds := 100 }

def stHugePeriod : HR := { HR.new with burst_duration := 0, period_seconds := 10^30 }

def stZeroPeriod : HR := { HR.new with period_seconds := 0, s_points := 5 }

lemma goLoop_isSome (dts pts : List ℚ) (pl : ℚ) (_hpl : 0 < pl) :
    ∀ (n : ℕ) (aux factor sdt pb : ℚ), pts.headD 0 ≤ pl * factor + pl * n →
      (goLoop dts pts pl (n + 2) aux factor sdt pb).isSome := by
  intro n
  induction n with
  | zero =>
    intro aux factor sdt pb hb
    have hstop : ¬ pl * factor < pts.headD 0 := by push_neg; simpa using hb
    have hstop2 : ¬ pl * factor < pts.head?.getD 0 := by
      simpa [List.headD_eq_head?_getD] using hstop
    rw [goLoop]
    split
    · cases hscan : searchScan dts pts (pl * factor) with
      | none =>
        simp only [hscan]
        rw [goLoop]
        simp [hstop2]
      | some dp =>
        obtain ⟨d, p⟩ := dp
        simp only [hscan]
        split
        · simp
        · rw [goLoop]
          simp [hstop2]
    · simp
  | succ n ih =>
    intro aux factor sdt pb hb
    rw [goLoop]
    split
    · cases hscan : searchScan dts pts (pl * factor) with
      | none =>
        simp only [hscan]
        refine ih (pl * factor) (factor + 1) sdt pb ?_
        push_cast at hb ⊢
        ring_nf at hb ⊢
        linarith
      | some dp =>
        obtain ⟨d, p⟩ := dp
        simp only [hscan]
        split
        · simp
        · refine ih (pl * factor) (factor + 1) d p ?_
          push_cast at hb ⊢
          ring_nf at hb ⊢
          linarith
    · simp

lemma searchExit_isSome (dts pts : List ℚ) (pl : ℚ) (hpl : 0 < pl) :
    (searchExit dts pts pl).isSome := by
  rw [searchExit, fuelFor, if_pos hpl]
  apply goLoop_isSome dts pts pl hpl
  have h1 : pts.headD 0 / pl ≤ ((⌈pts.headD 0 / pl⌉.toNat : ℤ) : ℚ) := by
    calc pts.headD 0 / pl ≤ (⌈pts.headD 0 / pl⌉ : ℚ) := Int.le_ceil _
    _ ≤ ((⌈pts.headD 0 / pl⌉.toNat : ℤ) : ℚ) := by exact_mod_cast Int.self_le_toNat _
  have h2 : pts.headD 0 ≤ pl * (⌈pts.headD 0 / pl⌉.toNat : ℚ) := by
    rw [div_le_iff₀ hpl] at h1
    push_cast at h1 ⊢
    linarith
  push_cast at h2 ⊢
  ring_nf at h2 ⊢
  linarith

lemma isSome_omap {α β : Type} (f : α → β) (o : Option α) : (o.map f).isSome = o.isSome := by
  cases o <;> rfl

lemma searchFinal_isSome (dts pts : List ℚ) (pl : ℚ) (hpl : 0 < pl) :
    (searchFinal dts pts pl).isSome := by
  rw [searchFinal, isSome_omap]
  exact searchExit_isSome dts pts pl hpl

lemma select_isSome (dts pts : List ℚ) (pl dtIn : ℚ) (hpl : 0 < pl) :
    (select_dt_neuron_model dts pts pl dtIn).isSome := by
  rw [select_dt_neuron_model, isSome_omap]
  exact searchFinal_isSome dts pts pl hpl

lemma searchScan_mem (dts pts : List ℚ) (aux d p : ℚ)
    (h : searchScan dts pts aux = some (d, p)) : (d, p) ∈ dts.zip pts := by
  rw [searchScan] at h
  have := List.mem_of_find?_eq_some h
  simpa using this

lemma goLoop_specGo (dts pts : List ℚ) (pl : ℚ) :
    ∀ (fuel : ℕ) (aux factor sdt pb : ℚ) (cand : Option (ℚ × ℚ)),
      CandRel dts pts cand sdt pb →
      (goLoop dts pts pl fuel aux factor sdt pb = none ∧
        specGo dts pts (pts.headD 0) pl fuel aux factor cand = none) ∨
      (∃ aux2 sdt2 pb2 flag cand2,
        goLoop dts pts pl fuel aux factor sdt pb = some (aux2, sdt2, pb2, flag) ∧
        specGo dts pts (pts.headD 0) pl fuel aux factor cand = some (aux2, cand2, flag) ∧
        CandRel dts pts cand2 sdt2 pb2) := by
  intro fuel
  induction fuel with
  | zero =>
    intro aux factor sdt pb cand hrel
    left
    exact ⟨rfl, rfl⟩
  | succ fuel ih =>
    intro aux factor sdt pb cand hrel
    rw [goLoop, specGo]
    by_cases hcond : aux < pts.headD 0
    · rw [if_pos hcond, if_pos hcond]
      cases hscan : searchScan dts pts (pl * factor) with
      | none =>
        simp only [hscan]
        exact ih (pl * factor) (factor + 1) sdt pb cand hrel
      | some dp =>
        obtain ⟨d, p⟩ := dp
        simp only [hscan]
        by_cases hacc : qfract (p / pl) ≤ (1/10) * qtrunc (p / pl)
        · rw [if_pos hacc, if_pos hacc]
          right
          refine ⟨pl * factor, d, p, true, some (d, p), rfl, rfl, Or.inr ?_⟩
          exact ⟨d, p, rfl, rfl, rfl, searchScan_mem dts pts (pl * factor) d p hscan⟩
        · rw [if_neg hacc, if_neg hacc]
          refine ih (pl * factor) (factor + 1) d p (some (d, p)) (Or.inr ?_)
          exact ⟨d, p, rfl, rfl, rfl, searchScan_mem dts pts (pl * factor) d p hscan⟩
    · rw [if_neg hcond, if_neg hcond]
      right
      exact ⟨aux, sdt, pb, false, cand, rfl, rfl, hrel⟩

/-- The source search coincides with the spec-style search once the loop
bound is corrected to the table's first (largest) achievable-points entry,
provided every step size of the table is positive. -/
lemma select_eq_amended (dts pts : List ℚ) (hdts : ∀ d ∈ dts, 0 < d) (pl dtIn : ℚ) :
    select_dt_neuron_model dts pts pl dtIn = amendedSelect dts pts pl dtIn := by
  rw [select_dt_neuron_model, amendedSelect, specSelect, searchFinal, searchExit]
  rcases goLoop_specGo dts pts pl (fuelFor pts pl) pl 1 (-1) (-1) none
      (Or.inl ⟨rfl, rfl, rfl⟩) with ⟨h1, h2⟩ | ⟨aux2, sdt2, pb2, flag, cand2, h1, h2, hrel⟩
  · rw [h1, h2]
    rfl
  · rw [h1, h2]
    simp only [Option.map_map, Option.map_some']
    congr 1
    cases flag with
    | true =>
      rcases hrel with ⟨hc, hs, hp⟩ | ⟨d, p, hc, hs, hp, hmem⟩
      · simp only [hc, hs, hp]
        norm_num
      · have hd : 0 < d := hdts d (List.of_mem_zip hmem).1
        simp only [hc, hs, hp]
        simp [hd]
    | false =>
      cases hscan : searchScan dts pts aux2 with
      | none =>
        rcases hrel with ⟨hc, hs, hp⟩ | ⟨d, p, hc, hs, hp, hmem⟩
        · simp only [hscan, hc, hs, hp]
          norm_num
        · have hd : 0 < d := hdts d (List.of_mem_zip hmem).1
          simp only [hscan, hc, hs, hp]
          simp [hd]
      | some dp =>
        obtain ⟨d2, p2⟩ := dp
        have hd : 0 < d2 :=
          hdts d2 (List.of_mem_zip (searchScan_mem dts pts aux2 d2 p2 hscan)).1
        simp only [hscan]
        simp [hd]

lemma hrDts_pos : ∀ d ∈ hrDts, 0 < d := by decide!

/-- The candidate pair at loop exit is either the untouched `(-1, -1)`
sentinel or a pair of the table. -/
lemma searchFinal_cases (dts pts : List ℚ) (pl : ℚ) (r : ℚ × ℚ)
    (h : searchFinal dts pts pl = some r) :
    (r = (-1, -1)) ∨ r ∈ dts.zip pts := by
  rw [searchFinal, searchExit] at h
  rcases goLoop_specGo dts pts pl (fuelFor pts pl) pl 1 (-1) (-1) none
      (Or.inl ⟨rfl, rfl, rfl⟩) with ⟨h1, _⟩ | ⟨aux2, sdt2, pb2, flag, cand2, h1, _, hrel⟩
  · rw [h1] at h
    exact absurd h (by simp)
  · rw [h1] at h
    simp only [Option.map_some', Option.some_inj] at h
    cases flag with
    | true =>
      simp only [if_pos] at h
      rcases hrel with ⟨_, hs, hp⟩ | ⟨d, p, _, hs, hp, hmem⟩
      · left
        rw [← h, hs, hp]
      · right
        rw [← h, hs, hp]
        exact hmem
    | false =>
      simp only [Bool.false_eq_true, if_false] at h
      cases hscan : searchScan dts pts aux2 with
      | none =>
        simp only [hscan] at h
        rcases hrel with ⟨_, hs, hp⟩ | ⟨d, p, _, hs, hp, hmem⟩
        · left
          rw [← h, hs, hp]
        · right
          rw [← h, hs, hp]
          exact hmem
      | some dp =>
        obtain ⟨d2, p2⟩ := dp
        simp only [hscan] at h
        right
        rw [← h]
        exact searchScan_mem dts pts aux2 d2 p2 hscan

/-- The search updates `dt` only to a step size of the table. -/
lemma select_dt_cases (dts pts : List ℚ) (pl dtIn : ℚ) (r : ℚ × ℚ)
    (h : select_dt_neuron_model dts pts pl dtIn = some r) :
    r.1 = dtIn ∨ r.1 ∈ dts := by
  rw [select_dt_neuron_model] at h
  cases hsf : searchFinal dts pts pl with
  | none =>
    rw [hsf] at h
    exact absurd h (by simp)
  | some q =>
    rw [hsf] at h
    simp only [Option.map_some', Option.some_inj] at h
    rcases searchFinal_cases dts pts pl q hsf with hq | hq
    · left
      rw [← h, hq]
      norm_num
    · by_cases h1 : 0 < q.1
      · right
        rw [← h]
        simp only [if_pos h1]
        exact (List.of_mem_zip hq).1
      · left
        rw [← h]
        simp [h1]

lemma select_result (dts pts : List ℚ) (pl dtIn : ℚ) (sdt pb : ℚ)
    (h : searchFinal dts pts pl = some (sdt, pb)) :
    select_dt_neuron_model dts pts pl dtIn = some (if 0 < sdt then sdt else dtIn, pb) := by
  rw [select_dt_neuron_model, h, Option.map_some']

lemma negCore_sp_irrel (p bd dtv : ℚ) (sp1 sp2 : ℕ) :
    negCore p bd dtv sp1 = negCore p bd dtv sp2 := by
  rw [negCore, negCore]
  by_cases hp : p ≤ 0
  · simp [hp]
  · rw [if_neg hp, if_neg hp]
    by_cases hbd : 0 < bd
    · rw [if_pos hbd, if_pos hbd]
      cases hsel : set_pts_burst bd (1 / p) dtv with
      | none =>
        exfalso
        have hpl : 0 < bd * (1 / p) := by
          push_neg at hp
          positivity
        have := select_isSome hrDts hrPts (bd * (1 / p)) dtv hpl
        rw [set_pts_burst] at hsel
        rw [hsel] at this
        exact absurd this (by simp)
      | some r => simp
    · rw [if_neg hbd, if_neg hbd]

lemma negCore_dt_nonneg (p bd dtv : ℚ) (sp : ℕ) (h : 0 ≤ dtv) :
    0 ≤ (negCore p bd dtv sp).1 := by
  rw [negCore]
  by_cases hp : p ≤ 0
  · rw [if_pos hp]
    exact h
  · rw [if_neg hp]
    by_cases hbd : 0 < bd
    · rw [if_pos hbd]
      cases hsel : set_pts_burst bd (1 / p) dtv with
      | none => exact h
      | some r =>
        simp only []
        rw [set_pts_burst] at hsel
        cases hsf : searchFinal hrDts hrPts (bd * (1 / p)) with
        | none =>
          rw [select_dt_neuron_model, hsf] at hsel
          exact absurd hsel (by simp)
        | some q =>
          have hsl := select_result hrDts hrPts (bd * (1 / p)) dtv q.1 q.2 (by rw [hsf])
          rw [hsel, Option.some_inj] at hsl
          rw [hsl]
          by_cases h1 : 0 < q.1
          · simp only [if_pos h1]
            exact le_of_lt h1
          · simpa [h1] using h
    · rw [if_neg hbd]
      exact h

lemma negCore_second (p bd dtv : ℚ) (sp m : ℕ) :
    negCore p bd (negCore p bd dtv sp).1 m = negCore p bd dtv sp := by
  by_cases hp : p ≤ 0
  · simp only [negCore, if_pos hp]
  · by_cases hbd : 0 < bd
    · have hpl : 0 < bd * (1 / p) := by
        push_neg at hp
        positivity
      cases hsf : searchFinal hrDts hrPts (bd * (1 / p)) with
      | none =>
        exfalso
        have := searchFinal_isSome hrDts hrPts (bd * (1 / p)) hpl
        rw [hsf] at this
        exact absurd this (by simp)
      | some q =>
        obtain ⟨sdt, pb⟩ := q
        have hs1 := select_result hrDts hrPts (bd * (1 / p)) dtv sdt pb hsf
        have hs2 : select_dt_neuron_model hrDts hrPts (bd * (1 / p))
            (if 0 < sdt then sdt else dtv) = some (if 0 < sdt then sdt else dtv, pb) := by
          rw [select_result hrDts hrPts (bd * (1 / p)) (if 0 < sdt then sdt else dtv) sdt pb hsf]
          by_cases h1 : 0 < sdt <;> simp [h1]
        simp only [negCore, if_neg hp, if_pos hbd, set_pts_burst, hs1, hs2]
    · simp only [negCore, if_neg hp, if_neg hbd]

lemma ubs_sp_congr (st : HR) (n : ℕ) :
    update_burst_settings { st with s_points := n } = update_burst_settings st := by
  obtain ⟨x, y, z, isyn, e, mu, s, vh, dt, bd, sp, p, cx, cy, cz⟩ := st
  simp only [update_burst_settings]
  rw [negCore_sp_irrel p bd dt n sp]

lemma ubs_idem (st : HR) :
    update_burst_settings (update_burst_settings st) = update_burst_settings st := by
  obtain ⟨x, y, z, isyn, e, mu, s, vh, dt, bd, sp, p, cx, cy, cz⟩ := st
  simp only [update_burst_settings]
  rw [negCore_sp_irrel p bd (negCore p bd dt sp).1
    (if (negCore p bd dt sp).2 = 0 then 1 else (negCore p bd dt sp).2) sp]
  rw [negCore_second p bd dt sp sp]

lemma ubs_dt_override (st : HR) :
    update_burst_settings { update_burst_settings st with dt := st.dt } =
      update_burst_settings st := by
  have h1 : { update_burst_settings st with dt := st.dt } =
      { st with s_points :=
          if (negCore st.period_seconds st.burst_duration st.dt st.s_points).2 = 0 then 1
          else (negCore st.period_seconds st.burst_duration st.dt st.s_points).2 } := by
    obtain ⟨x, y, z, isyn, e, mu, s, vh, dt, bd, sp, p, cx, cy, cz⟩ := st
    simp only [update_burst_settings]
  rw [h1, ubs_sp_congr]

lemma ubs_dt_nonneg (st : HR) (h : 0 ≤ st.dt) : 0 ≤ (update_burst_settings st).dt :=
  negCore_dt_nonneg st.period_seconds st.burst_duration st.dt st.s_points h

lemma ac_e (c : HRConfig) (st : HR) : (applyConfig c st).e = (c.e).getD st.e := by
  rw [applyConfig]
  dsimp only
  split <;> rfl

lemma ac_mu (c : HRConfig) (st : HR) : (applyConfig c st).mu = (c.mu).getD st.mu := by
  rw [applyConfig]
  dsimp only
  split <;> rfl

lemma ac_s (c : HRConfig) (st : HR) : (applyConfig c st).s = (c.s).getD st.s := by
  rw [applyConfig]
  dsimp only
  split <;> rfl

lemma ac_vh (c : HRConfig) (st : HR) : (applyConfig c st).vh = (c.vh).getD st.vh := by
  rw [applyConfig]
  dsimp only
  split <;> rfl

lemma ac_dt (c : HRConfig) (st : HR) :
    (applyConfig c st).dt = max ((c.time_increment).getD st.dt) 0 := by
  rw [applyConfig]
  dsimp only
  split <;> rfl

lemma ac_bd (c : HRConfig) (st : HR) :
    (applyConfig c st).burst_duration = (c.burst_duration).getD st.burst_duration := by
  rw [applyConfig]
  dsimp only
  split <;> rfl

lemma ac_period (c : HRConfig) (st : HR) :
    (applyConfig c st).period_seconds = (c.period_seconds).getD st.period_seconds := by
  rw [applyConfig]
  dsimp only
  split <;> rfl

lemma ac_sp (c : HRConfig) (st : HR) : (applyConfig c st).s_points = st.s_points := by
  rw [applyConfig]
  dsimp only
  split <;> rfl

lemma ac_cfg_x (c : HRConfig) (st : HR) :
    (applyConfig c st).cfg_x = (c.x).getD ((applyConfig c st).x) := by
  rw [applyConfig]
  dsimp only
  split
  · cases hc : c.x <;> simp [hc]
  · next hcond =>
    have heq := not_ne_iff.mp hcond
    rw [Prod.mk.injEq, Prod.mk.injEq] at heq
    cases hc : c.x <;> simp only [hc] at heq ⊢ <;> simp [heq.1]

lemma ac_cfg_y (c : HRConfig) (st : HR) :
    (applyConfig c st).cfg_y = (c.y).getD ((applyConfig c st).y) := by
  rw [applyConfig]
  dsimp only
  split
  · cases hc : c.y <;> simp [hc]
  · next hcond =>
    have heq := not_ne_iff.mp hcond
    rw [Prod.mk.injEq, Prod.mk.injEq] at heq
    cases hc : c.y <;> simp only [hc] at heq ⊢ <;> simp [heq.2.1]

lemma ac_cfg_z (c : HRConfig) (st : HR) :
    (applyConfig c st).cfg_z = (c.z).getD ((applyConfig c st).z) := by
  rw [applyConfig]
  dsimp only
  split
  · cases hc : c.z <;> simp [hc]
  · next hcond =>
    have heq := not_ne_iff.mp hcond
    rw [Prod.mk.injEq, Prod.mk.injEq] at heq
    cases hc : c.z <;> simp only [hc] at heq ⊢ <;> simp [heq.2.2]

lemma getD_idem (o : Option ℚ) (a : ℚ) : o.getD (o.getD a) = o.getD a := by
  cases o <;> rfl

/-- A second application of the configuration assignments on the state
already produced by `set_config` takes the skip branch for the `(x, y, z)`
triple and changes only `dt`. -/
lemma applyConfig_after (c : HRConfig) (st : HR) :
    applyConfig c (set_config c st) =
      { set_config c st with
          dt := max ((c.time_increment).getD ((set_config c st).dt)) 0 } := by
  have hx : (set_config c st).cfg_x = (c.x).getD ((set_config c st).x) := ac_cfg_x c st
  have hy : (set_config c st).cfg_y = (c.y).getD ((set_config c st).y) := ac_cfg_y c st
  have hz : (set_config c st).cfg_z = (c.z).getD ((set_config c st).z) := ac_cfg_z c st
  have hskip : ¬ (((c.x).getD ((set_config c st).x), (c.y).getD ((set_config c st).y),
      (c.z).getD ((set_config c st).z)) ≠
      ((set_config c st).cfg_x, (set_config c st).cfg_y, (set_config c st).cfg_z)) := by
    rw [not_ne_iff, Prod.mk.injEq, Prod.mk.injEq]
    exact ⟨hx.symm, hy.symm, hz.symm⟩
  have he : (c.e).getD ((set_config c st).e) = (set_config c st).e := by
    have h1 : (set_config c st).e = (c.e).getD st.e := ac_e c st
    rw [h1, getD_idem]
  have hmu : (c.mu).getD ((set_config c st).mu) = (set_config c st).mu := by
    have h1 : (set_config c st).mu = (c.mu).getD st.mu := ac_mu c st
    rw [h1, getD_idem]
  have hs : (c.s).getD ((set_config c st).s) = (set_config c st).s := by
    have h1 : (set_config c st).s = (c.s).getD st.s := ac_s c st
    rw [h1, getD_idem]
  have hvh : (c.vh).getD ((set_config c st).vh) = (set_config c st).vh := by
    have h1 : (set_config c st).vh = (c.vh).getD st.vh := ac_vh c st
    rw [h1, getD_idem]
  have hbd : (c.burst_duration).getD ((set_config c st).burst_duration) =
      (set_config c st).burst_duration := by
    have h1 : (set_config c st).burst_duration = (c.burst_duration).getD st.burst_duration :=
      ac_bd c st
    rw [h1, getD_idem]
  have hper : (c.period_seconds).getD ((set_config c st).period_seconds) =
      (set_config c st).period_seconds := by
    have h1 : (set_config c st).period_seconds = (c.period_seconds).getD st.period_seconds :=
      ac_period c st
    rw [h1, getD_idem]
  conv_lhs => rw [applyConfig]
  dsimp only
  rw [if_neg hskip, he, hmu, hs, hvh, hbd, hper]

/-- Claim C9's statement: reconfiguration is idempotent on the whole state. -/
lemma set_config_idem_aux (c : HRConfig) (st : HR) :
    set_config c (set_config c st) = set_config c st := by
  show update_burst_settings (applyConfig c (set_config c st)) = set_config c st
  rw [applyConfig_after]
  cases hti : c.time_increment with
  | none =>
    simp only [hti, Option.getD_none]
    have hnn : 0 ≤ (set_config c st).dt :=
      ubs_dt_nonneg (applyConfig c st) (by rw [ac_dt]; exact le_max_right _ _)
    rw [max_eq_left hnn]
    have heta : ({ set_config c st with dt := (set_config c st).dt } : HR) =
        set_config c st := rfl
    rw [heta]
    exact ubs_idem (applyConfig c st)
  | some v =>
    simp only [hti, Option.getD_some]
    have hAdt : (applyConfig c st).dt = max v 0 := by
      rw [ac_dt, hti]
      rfl
    rw [← hAdt]
    exact ubs_dt_override (applyConfig c st)

lemma specK1_eq (f : (Fin 3 → ℚ) → Fin 3 → ℚ) (dt : ℚ) (v : Fin 3 → ℚ) :
    specK1 f dt v = fun j => dt * f v j := rfl

lemma specK2_eq (f : (Fin 3 → ℚ) → Fin 3 → ℚ) (dt : ℚ) (v : Fin 3 → ℚ) :
    specK2 f dt v = fun j => dt * f (codeAux1 f dt v) j := by
  funext j
  simp only [specK2, specK1]
  have harg : (fun i => v i + 0.2 * (dt * f v i)) = codeAux1 f dt v := by
    funext i
    rw [codeAux1]
    ring
  rw [harg]

lemma specK3_eq (f : (Fin 3 → ℚ) → Fin 3 → ℚ) (dt : ℚ) (v : Fin 3 → ℚ) :
    specK3 f dt v = fun j => dt * f (codeAux2 f dt v) j := by
  funext j
  simp only [specK3, specK1, specK2_eq]
  have harg : (fun i => v i + 0.075 * (dt * f v i) + 0.225 * (dt * f (codeAux1 f dt v) i)) =
      codeAux2 f dt v := by
    funext i
    rw [codeAux2]
    ring
  rw [harg]

lemma specK4_eq (f : (Fin 3 → ℚ) → Fin 3 → ℚ) (dt : ℚ) (v : Fin 3 → ℚ) :
    specK4 f dt v = fun j => dt * f (codeAux3 f dt v) j := by
  funext j
  simp only [specK4, specK1, specK2_eq, specK3_eq]
  have harg : (fun i => v i + 0.3 * (dt * f v i) - 0.9 * (dt * f (codeAux1 f dt v) i)
      + 1.2 * (dt * f (codeAux2 f dt v) i)) = codeAux3 f dt v := by
    funext i
    rw [codeAux3]
    ring
  rw [harg]

lemma specK5_eq (f : (Fin 3 → ℚ) → Fin 3 → ℚ) (dt : ℚ) (v : Fin 3 → ℚ) :
    specK5 f dt v = fun j => dt * f (codeAux4 f dt v) j := by
  funext j
  simp only [specK5, specK1, specK2_eq, specK3_eq, specK4_eq]
  have harg : (fun i => v i + 0.075 * (dt * f v i) + 0.675 * (dt * f (codeAux1 f dt v) i)
      - 0.6 * (dt * f (codeAux2 f dt v) i) + 0.75 * (dt * f (codeAux3 f dt v) i)) =
      codeAux4 f dt v := by
    funext i
    rw [codeAux4]
    ring
  rw [harg]

lemma specK6_eq (f : (Fin 3 → ℚ) → Fin 3 → ℚ) (dt : ℚ) (v : Fin 3 → ℚ) :
    specK6 f dt v = fun j => dt * f (codeAux5 f dt v) j := by
  funext j
  simp only [specK6, specK1, specK2_eq, specK3_eq, specK4_eq, specK5_eq]
  have harg : (fun i => v i + 0.660493827160493 * (dt * f v i)
      + 2.5 * (dt * f (codeAux1 f dt v) i) - 5.185185185185185 * (dt * f (codeAux2 f dt v) i)
      + 3.888888888888889 * (dt * f (codeAux3 f dt v) i)
      - 0.864197530864197 * (dt * f (codeAux4 f dt v) i)) = codeAux5 f dt v := by
    funext i
    rw [codeAux5]
    ring
  rw [harg]

lemma negCore_dt_cases (p bd dtv : ℚ) (sp : ℕ) :
    (negCore p bd dtv sp).1 = dtv ∨ (negCore p bd dtv sp).1 ∈ hrDts := by
  rw [negCore]
  by_cases hp : p ≤ 0
  · rw [if_pos hp]
    left
    rfl
  · rw [if_neg hp]
    by_cases hbd : 0 < bd
    · rw [if_pos hbd]
      cases hsel : set_pts_burst bd (1 / p) dtv with
      | none =>
        left
        rfl
      | some r =>
        simp only []
        rw [set_pts_burst] at hsel
        exact select_dt_cases hrDts hrPts (bd * (1 / p)) dtv r hsel
    · rw [if_neg hbd]
      left
      rfl

lemma hrPts_le_head : ∀ q ∈ hrPts, q ≤ hrPts.headD 0 := by decide!

/-! ## Claim theorems -/

/-- C1, counterexample: the final-combination coefficient is written in the
source as the 15-digit literal `0.098765432098765`; the binary64 value that
literal denotes is NOT the double nearest the exact coefficient `8/81`, so
the coefficients are not "reproduced to full double precision". -/
theorem c1_coefficient_counterexample : fp64 rkW1 ≠ fp64 (8 / 81) := by decide!

lemma rkStep_eq_code (f : (Fin 3 → ℚ) → Fin 3 → ℚ) (dt : ℚ) (v : Fin 3 → ℚ) :
    rkStep f dt v = fun j =>
      v j + dt * f v j * rkW1 + dt * f (codeAux2 f dt v) j * rkW3
        + dt * f (codeAux3 f dt v) j * rkW4 + dt * f (codeAux4 f dt v) j * rkW5
        - dt * f (codeAux5 f dt v) j * rkW6 := rfl

/-- C1, amended: one iteration of the integration loop of `process`
computes the six-stage explicit scheme of section 4.2 component-wise, with
the final combination `v1 = v0 + c1*k1 + c3*k3 + c4*k4 + c5*k5 - c6*k6` —
where the stage and combination coefficients are the values the source's
15-digit decimal literals denote (truncations of 8/81, 25/63, 25/108,
125/324, 1/28 …), not the doubles nearest those exact rationals. -/
theorem c1_integrator_step_amended (f : (Fin 3 → ℚ) → Fin 3 → ℚ) (dt : ℚ)
    (v : Fin 3 → ℚ) : rkStep f dt v = specCombine f dt v := by
  rw [rkStep_eq_code]
  funext j
  simp only [specCombine, specK1_eq, specK3_eq, specK4_eq, specK5_eq, specK6_eq]
  generalize f v j = A1
  generalize f (codeAux2 f dt v) j = A3
  generalize f (codeAux3 f dt v) j = A4
  generalize f (codeAux4 f dt v) j = A5
  generalize f (codeAux5 f dt v) j = A6
  ring

/-- C2, counterexample: at `pts_live = 10080` the code's search iterates
(its loop runs while `aux` is below the FIRST table entry, 577638) and
accepts the entry 20513.166667 at `factor = 2`; under claim C2's reading —
loop while `aux` is below the SMALLEST entry 2829.684659, so zero
iterations here — the search would instead return the entry 11098.876404
found by the fallback scan.  The two results differ. -/
theorem c2_loop_bound_counterexample :
    claimSelect 10080 42 = some (51/2000, 2774719101/250000) ∧
    select_dt_neuron_model hrDts hrPts 10080 42 = some (69/5000, 20513166667/1000000) ∧
    claimSelect 10080 42 ≠ select_dt_neuron_model hrDts hrPts 10080 42 := by decide!

/-- C2, amended: the table search iterates multiples `aux = pts_live *
factor` exactly while `aux` is below the table's FIRST achievable-points
entry (`pts[0]`, the largest); on each iteration it scans from the largest
step size to the smallest, takes the first entry whose achievable-points
exceeds `aux` as the candidate, and accepts it immediately iff
`fracPart(candidate.achievablePoints / pts_live) <= 0.1 * intPart`: the
source search equals the spec-style search so amended, for every input. -/
theorem c2_table_search_amended (pts_live dtIn : ℚ) :
    select_dt_neuron_model hrDts hrPts pts_live dtIn =
      amendedSelect hrDts hrPts pts_live dtIn :=
  select_eq_amended hrDts hrPts hrDts_pos pts_live dtIn

/-- C3, counterexample: with `burst_duration = 0`, `period_seconds = 100`
and the default `dt = 0.0015`, the negotiator stores
`s_points = round(100 / 0.0015) = 66667 > 10000`: the `s_points` field is
NOT confined to `[1, 10000]` (the cap is applied only inside `process`). -/
theorem c3_sub_step_count_counterexample :
    (update_burst_settings stNoBurst).s_points = 66667 ∧
    ¬ ((update_burst_settings stNoBurst).s_points ≤ 10000) := by decide!

/-- C3, amended: after the negotiator runs, `s_points >= 1` always, and the
step count actually used per tick — `effSteps`, the
`s_points.min(10_000).max(1)` clamp of `process` — lies in `[1, 10000]`;
a request for more sub-steps than the cap silently receives the cap. -/
theorem c3_step_count_bounds_amended (st : HR) :
    1 ≤ (update_burst_settings st).s_points ∧
    1 ≤ effSteps (update_burst_settings st) ∧
    effSteps (update_burst_settings st) ≤ 10000 ∧
    (10000 ≤ (update_burst_settings st).s_points →
      effSteps (update_burst_settings st) = 10000) := by
  obtain ⟨x, y, z, isyn, e, mu, s, vh, dtv, bd, sp, p, cx, cy, cz⟩ := st
  have h1 : 1 ≤ (update_burst_settings
      (HR.mk x y z isyn e mu s vh dtv bd sp p cx cy cz)).s_points := by
    simp only [update_burst_settings]
    split <;> omega
  refine ⟨h1, ?_, ?_, ?_⟩ <;> (unfold effSteps; omega)

/-- C4, counterexample: `set_config` with document
`{time_increment: 0, burst_duration: 1000}` on a fresh instance leaves
`dt = 0` (the override is clamped to `0`, and the table search finds no
entry for `pts_live = 10^6`, so it does not reselect `dt`): `dt > 0` does
NOT hold after every `set_config`. -/
theorem c4_dt_zero_counterexample :
    (set_config { time_increment := some 0, burst_duration := some 1000 } HR.new).dt = 0 ∧
    ¬ (0 < (set_config { time_increment := some 0, burst_duration := some 1000 }
      HR.new).dt) := by decide!

/-- C4, amended: after any `set_config` the step size satisfies `dt >= 0`
(it can be exactly `0` via a non-positive `time_increment` override when
the negotiator does not reselect); the negotiator only ever changes `dt`
to a step size of the table (never a value outside the table's domain);
and the `time_increment` override is clamped non-negative before the
negotiator runs (visible as the `max _ 0` in `applyConfig`). -/
theorem c4_dt_invariant_amended (c : HRConfig) (st st2 : HR) :
    0 ≤ (set_config c st).dt ∧
    ((update_burst_settings st2).dt = st2.dt ∨ (update_burst_settings st2).dt ∈ hrDts) := by
  constructor
  · exact ubs_dt_nonneg (applyConfig c st) (by rw [ac_dt]; exact le_max_right _ _)
  · exact negCore_dt_cases st2.period_seconds st2.burst_duration st2.dt st2.s_points

/-- C5, counterexample: at `pts_live = 500000` the final `aux` is
`1000000` and NO table entry exceeds it (the fallback scan returns
nothing), yet the returned `pts_burst` is `577638` — the stale candidate
recorded and rejected at `factor = 1` — and `dt` IS changed (from 7 to
`0.0005`), contradicting "dt left unchanged and pts_burst negative
whenever no entry exceeds the final aux". -/
theorem c5_stale_candidate_counterexample :
    searchExit hrDts hrPts 500000 = some (1000000, 1/2000, 577638, false) ∧
    searchScan hrDts hrPts 1000000 = none ∧
    select_dt_neuron_model hrDts hrPts 500000 7 = some (1/2000, 577638) ∧
    (1/2000 : ℚ) ≠ 7 ∧ ¬ ((577638 : ℚ) < 0) := by decide!

/-- C5, amended: when NO scan during the whole search ever finds an entry
exceeding its `aux` — equivalently, when `pts_live` is at least the
table's first (largest) achievable-points entry — the step size is left
unchanged and `pts_burst` is the `-1` sentinel. -/
theorem c5_no_match_amended (pts_live dtIn : ℚ) (h : hrPts.headD 0 ≤ pts_live) :
    select_dt_neuron_model hrDts hrPts pts_live dtIn = some (dtIn, -1) := by
  have h0 : (0 : ℚ) < hrPts.headD 0 := by decide!
  have hpl : 0 < pts_live := lt_of_lt_of_le h0 h
  have hnlt : ¬ pts_live < hrPts.headD 0 := not_lt.mpr h
  have hscan : searchScan hrDts hrPts pts_live = none := by
    rw [searchScan, List.find?_eq_none]
    intro dp hdp
    obtain ⟨d, p⟩ := dp
    have hmem : (d, p) ∈ hrDts.zip hrPts := List.mem_reverse.mp hdp
    have hple : p ≤ hrPts.headD 0 := hrPts_le_head p (List.of_mem_zip hmem).2
    simp only [decide_eq_true_eq]
    push_neg
    exact le_trans hple h
  rw [select_dt_neuron_model, searchFinal, searchExit, fuelFor, if_pos hpl, goLoop,
    if_neg hnlt]
  simp only [Option.map_some']
  norm_num [hscan]

/-- C5, amended, witness. -/
theorem c5_no_match_amended_witness :
    hrPts.headD 0 ≤ (600000 : ℚ) ∧
    select_dt_neuron_model hrDts hrPts 600000 (3/2000) = some (3/2000, -1) :=
  ⟨by decide!, c5_no_match_amended 600000 (3/2000) (by decide!)⟩

/-- C6, counterexample: with `burst_duration = 0`, `period_seconds =
10^30` and `dt = 0.0015`, the source stores `usize::MAX` (the saturating
`f64 -> usize` cast), not `round(host_period / dt).max(1)` as claimed. -/
theorem c6_saturation_counterexample :
    (update_burst_settings stHugePeriod).s_points = usizeMax ∧
    max (rustRound (stHugePeriod.period_seconds / stHugePeriod.dt)).toNat 1 ≠ usizeMax := by
  decide!

/-- C6, amended: for every state with `host_period > 0`,
`burst_duration <= 0` and `dt > 0`, the negotiator performs no table
search, leaves `dt` unchanged, and sets
`s_points = round(host_period / dt)` SATURATED at `usize::MAX` and clamped
to a minimum of 1. -/
theorem c6_bd_nonpos_amended (st : HR) (hp : 0 < st.period_seconds)
    (hbd : st.burst_duration ≤ 0) (hdt : 0 < st.dt) :
    update_burst_settings st =
      { st with
          s_points := max (min (rustRound (st.period_seconds / st.dt)).toNat usizeMax) 1 } := by
  obtain ⟨x, y, z, isyn, e, mu, s, vh, dtv, bd, sp, p, cx, cy, cz⟩ := st
  simp only at hp hbd hdt
  have h1 : ¬ p ≤ 0 := not_le.mpr hp
  have h2 : ¬ 0 < bd := not_lt.mpr hbd
  have h3 : ¬ dtv = 0 := by
    intro h
    rw [h] at hdt
    exact lt_irrefl 0 hdt
  simp only [update_burst_settings, negCore, if_neg h1, if_neg h2, bdLeSteps, if_neg h3,
    satCast]
  have h4 : max (min (rustRound (p / dtv)).toNat usizeMax) 1 ≠ 0 := by omega
  rw [if_neg h4]

/-- C6, amended, witness: `period = 100`, `dt = 0.0015`, `bd = 0` gives
`s_points = round(100/0.0015) = 66667`. -/
theorem c6_bd_nonpos_amended_witness :
    0 < stNoBurst.period_seconds ∧ stNoBurst.burst_duration ≤ 0 ∧ 0 < stNoBurst.dt ∧
    update_burst_settings stNoBurst =
      { stNoBurst with
          s_points :=
            max (min (rustRound (stNoBurst.period_seconds / stNoBurst.dt)).toNat usizeMax) 1 } :=
  ⟨by decide!, by decide!, by decide!,
    c6_bd_nonpos_amended stNoBurst (by decide!) (by decide!) (by decide!)⟩

/-- C7: whenever `host_period <= 0`, the negotiator sets `s_points` to 1
and touches nothing else (no table search, no division by the non-positive
period). -/
theorem c7_nonpos_period (st : HR) (h : st.period_seconds ≤ 0) :
    update_burst_settings st = { st with s_points := 1 } := by
  obtain ⟨x, y, z, isyn, e, mu, s, vh, dtv, bd, sp, p, cx, cy, cz⟩ := st
  simp only at h
  simp only [update_burst_settings, negCore, if_pos h]
  norm_num

/-- C7, witness. -/
theorem c7_nonpos_period_witness :
    stZeroPeriod.period_seconds ≤ 0 ∧
    update_burst_settings stZeroPeriod = { stZeroPeriod with s_points := 1 } :=
  ⟨by decide!, c7_nonpos_period stZeroPeriod (by decide!)⟩

/-- C8: the vector-field closure of `process` is a pure function of
(state, parameters, input) returning exactly
`(y + 3x² - x³ - vh·z + e - i_syn, 1 - 5x² - y, mu·(-vh·z + s·(x + 1.6)))`
at every (finite) input. -/
theorem c8_vector_field (st : HR) (v : Fin 3 → ℚ) :
    fHR st v = ![v 1 + 3 * (v 0)^2 - (v 0)^3 - st.vh * v 2 + st.e - st.input_syn,
                 1 - 5 * (v 0)^2 - v 1,
                 st.mu * (-st.vh * v 2 + st.s * (v 0 + 1.6))] := by
  funext j
  fin_cases j <;> simp [fHR] <;> ring

/-- C9: reconfiguration is idempotent: applying the same configuration
document twice in succession (no tick in between) yields exactly the same
full state — `(x, y, z)`, parameters `(e, mu, s, vh)`, and timing state
`(dt, s_points, burst_duration, period_seconds)` — as applying it once;
the skip-if-unchanged rule on the `(x, y, z)` triple causes no drift. -/
theorem c9_set_config_idempotent (c : HRConfig) (st : HR) :
    set_config c (set_config c st) = set_config c st :=
  set_config_idem_aux c st

/-- C10: the table-search loop terminates for every `pts_live > 0` (the
fuelled embedding of the `while` loop reaches its exit within the fuel
`fuelFor`, so the search returns a result); the caller guarantees
`burst_duration > 0` and `freq > 0`, hence `pts_live > 0`. -/
theorem c10_search_terminates (pts_live dtIn : ℚ) (h : 0 < pts_live) :
    (select_dt_neuron_model hrDts hrPts pts_live dtIn).isSome :=
  select_isSome hrDts hrPts pts_live dtIn h

/-- C10, witness. -/
theorem c10_search_terminates_witness :
    (0 : ℚ) < 3 ∧ (select_dt_neuron_model hrDts hrPts 3 1).isSome :=
  ⟨by norm_num, c10_search_terminates 3 1 (by norm_num)⟩
